import Mathlib

/-!
Verification of the CV-CUDA workspace core (`src/cvcuda/include/cvcuda/Workspace.hpp`)
against its natural-language specification.

The header is embedded shallowly:
* `WorkspaceMemRequirements` / `WorkspaceRequirements` mirror the C structs
  (unsigned integers become `Nat`);
* `MaxWorkspaceReq` mirrors the inline function at lines 45-55, with its three
  `assert`s modelled separately as the Boolean `maxWorkspaceReqAssertsOk`;
* the deleter lambda of `AllocateWorkspace` (lines 151-178), `UniqueWorkspace`
  (lines 71-136) and `AllocateWorkspace` (lines 144-199) are modelled as pure
  state-passing functions that additionally record a trace of the calls made to
  the allocator capability (`alloc`/`free` per memory space) and to
  `cudaEventSynchronize` (the readiness wait); a thrown C++ exception is
  modelled by a `false` completion flag, after which control flow stops.
-/

namespace CvCuda

/-- Modelled from the spec: `NVCVWorkspaceMemRequirements` comes from the public
header `Workspace.h`, which is not part of the sources under verification; per
the spec's data model it is a pair of unsigned integers
`{ size, alignment }`. -/
structure WorkspaceMemRequirements where
  size : Nat
  alignment : Nat
deriving DecidableEq

/-- Modelled from the spec: `NVCVWorkspaceRequirements` (from the missing
`Workspace.h`) holds one `MemRequirement` per memory space: `hostMem`,
`pinnedMem`, `cudaMem`. -/
structure WorkspaceRequirements where
  hostMem : WorkspaceMemRequirements
  pinnedMem : WorkspaceMemRequirements
  cudaMem : WorkspaceMemRequirements
deriving DecidableEq

/-- Modelled from the spec: `nvcv::detail::AlignUp` comes from
`nvcv/detail/Align.hpp`, which is not part of the sources under verification;
per the spec (§4.1) it is `round_up(x, a)`: the smallest multiple of `a` that
is not smaller than `x` (for `a ≥ 1`). -/
def AlignUp (x a : Nat) : Nat :=
  (x + a - 1) / a * a

/-- The function `MaxWorkspaceReq` on a single memory space, Workspace.hpp lines 45-55
(asserts aside): `alignment = max(a.alignment, b.alignment)`,
`size = AlignUp(max(a.size, b.size), alignment)`. -/
def MaxWorkspaceReq (a b : WorkspaceMemRequirements) : WorkspaceMemRequirements :=
  let alignment := if b.alignment > a.alignment then b.alignment else a.alignment
  let size := if b.size > a.size then b.size else a.size
  { size := AlignUp size alignment, alignment := alignment }

/-- The three assertions inside `MaxWorkspaceReq` (lines 48, 49 and 52), in
execution order; `true` means no assertion fires.  The third assert tests
`ret.alignment & (ret.alignment - 1) == 0`; `Nat` subtraction truncates
`0 - 1` to `0`, which agrees with the C unsigned evaluation `0 & ~0 = 0`. -/
def maxWorkspaceReqAssertsOk (a b : WorkspaceMemRequirements) : Bool :=
  (a.size == 0 || decide (0 < a.alignment)) &&
  ((b.size == 0 || decide (0 < b.alignment)) &&
    (let al := if b.alignment > a.alignment then b.alignment else a.alignment;
     al &&& (al - 1) == 0))

/-- The componentwise `WorkspaceRequirements` overload of `MaxWorkspaceReq`
(Workspace.hpp lines 58-65): component-wise application. -/
def MaxWorkspaceReqs (a b : WorkspaceRequirements) : WorkspaceRequirements where
  hostMem := MaxWorkspaceReq a.hostMem b.hostMem
  pinnedMem := MaxWorkspaceReq a.pinnedMem b.pinnedMem
  cudaMem := MaxWorkspaceReq a.cudaMem b.cudaMem

/-- The proposition that `n` is a power of two. -/
def IsPow2 (n : Nat) : Prop :=
  ∃ k, n = 2 ^ k

/-- A valid requirement per the spec's data model: power-of-two alignment and,
when the size is nonzero, the size is a multiple of the alignment. -/
def ValidReq (r : WorkspaceMemRequirements) : Prop :=
  IsPow2 r.alignment ∧ (r.size ≠ 0 → r.alignment ∣ r.size)

/-- The spec's precondition for `merge`: each argument's alignment is a power
of two, or that argument's size is zero. -/
def MergePre (a b : WorkspaceMemRequirements) : Prop :=
  (a.size = 0 ∨ IsPow2 a.alignment) ∧ (b.size = 0 ∨ IsPow2 b.alignment)

theorem IsPow2.pos {n : Nat} (h : IsPow2 n) : 0 < n := by
  obtain ⟨k, rfl⟩ := h
  exact pow_pos (by omega) k

theorem IsPow2.dvd_of_le {a b : Nat} (ha : IsPow2 a) (hb : IsPow2 b) (h : a ≤ b) : a ∣ b := by
  obtain ⟨i, rfl⟩ := ha
  obtain ⟨j, rfl⟩ := hb
  exact pow_dvd_pow 2 ((Nat.pow_le_pow_iff_right (by omega)).mp h)

theorem IsPow2.max {a b : Nat} (ha : IsPow2 a) (hb : IsPow2 b) : IsPow2 (max a b) := by
  rcases Nat.le_total a b with h | h
  · rwa [Nat.max_eq_right h]
  · rwa [Nat.max_eq_left h]

theorem IsPow2.land_pred {n : Nat} (h : IsPow2 n) : n &&& (n - 1) = 0 := by
  obtain ⟨k, rfl⟩ := h
  apply Nat.eq_of_testBit_eq
  intro i
  simp [Nat.testBit_land, Nat.testBit_two_pow_sub_one, Nat.zero_testBit, Nat.testBit_two_pow]

theorem if_gt_eq_max (a b : Nat) : (if b > a then b else a) = max a b := by
  rcases Nat.lt_or_ge a b with h | h
  · rw [if_pos h, Nat.max_eq_right (Nat.le_of_lt h)]
  · rw [if_neg (by omega), Nat.max_eq_left h]

theorem maxWorkspaceReq_eq (a b : WorkspaceMemRequirements) :
    MaxWorkspaceReq a b =
      { size := AlignUp (max a.size b.size) (max a.alignment b.alignment),
        alignment := max a.alignment b.alignment } := by
  unfold MaxWorkspaceReq
  rw [if_gt_eq_max, if_gt_eq_max]

theorem alignUp_dvd (x a : Nat) : a ∣ AlignUp x a :=
  dvd_mul_left a ((x + a - 1) / a)

theorem le_alignUp {a : Nat} (ha : 0 < a) (x : Nat) : x ≤ AlignUp x a := by
  unfold AlignUp
  cases x with
  | zero => exact Nat.zero_le _
  | succ m =>
    have hq : m + 1 + a - 1 = m + a := by omega
    rw [hq, Nat.add_div_right m ha]
    have hlt : m < (m / a + 1) * a := (Nat.div_lt_iff_lt_mul ha).mp (Nat.lt_succ_self _)
    omega

theorem alignUp_le {a y : Nat} (ha : 0 < a) (hy : a ∣ y) {x : Nat} (hxy : x ≤ y) :
    AlignUp x a ≤ y := by
  obtain ⟨q, rfl⟩ := hy
  unfold AlignUp
  have h1 : (x + a - 1) / a ≤ q := by
    have h2 : (x + a - 1) / a < q + 1 := by
      rw [Nat.div_lt_iff_lt_mul ha, Nat.add_mul, Nat.one_mul]
      rw [Nat.mul_comm a q] at hxy
      omega
    omega
  calc (x + a - 1) / a * a ≤ q * a := Nat.mul_le_mul_right a h1
    _ = a * q := Nat.mul_comm q a

theorem alignUp_eq_self {a x : Nat} (ha : 0 < a) (h : a ∣ x) : AlignUp x a = x :=
  Nat.le_antisymm (alignUp_le ha h (Nat.le_refl x)) (le_alignUp ha x)

theorem alignUp_mono {a x y : Nat} (ha : 0 < a) (h : x ≤ y) : AlignUp x a ≤ AlignUp y a :=
  alignUp_le ha (alignUp_dvd y a) (Nat.le_trans h (le_alignUp ha y))

theorem alignUp_alignUp {d m : Nat} (hd : 0 < d) (hm : 0 < m) (hdm : d ∣ m) (x : Nat) :
    AlignUp (AlignUp x d) m = AlignUp x m := by
  apply Nat.le_antisymm
  · exact alignUp_le hm (alignUp_dvd x m)
      (alignUp_le hd (hdm.trans (alignUp_dvd x m)) (le_alignUp hm x))
  · exact alignUp_le hm (alignUp_dvd (AlignUp x d) m)
      (Nat.le_trans (le_alignUp hd x) (le_alignUp hm (AlignUp x d)))

theorem alignUp_max {a : Nat} (ha : 0 < a) (x y : Nat) :
    AlignUp (max x y) a = max (AlignUp x a) (AlignUp y a) := by
  rcases Nat.le_total x y with h | h
  · rw [Nat.max_eq_right h, Nat.max_eq_right (alignUp_mono ha h)]
  · rw [Nat.max_eq_left h, Nat.max_eq_left (alignUp_mono ha h)]

/-- Claim C3: for power-of-two alignments, `MaxWorkspaceReq` returns the
maximum alignment, and a size that is the maximum of the input sizes rounded
up to a multiple of that alignment — i.e. a size that is a multiple of the
result alignment, not smaller than either input size, and minimal with these
properties; the given example evaluates to `{alignment:32, size:128}`; and the
`WorkspaceRequirements` overload applies this independently per space. -/
theorem maxWorkspaceReq_spec (a b : WorkspaceMemRequirements)
    (ha : IsPow2 a.alignment) (hb : IsPow2 b.alignment) :
    (MaxWorkspaceReq a b).alignment = max a.alignment b.alignment ∧
    (MaxWorkspaceReq a b).size = AlignUp (max a.size b.size) (max a.alignment b.alignment) ∧
    (MaxWorkspaceReq a b).alignment ∣ (MaxWorkspaceReq a b).size ∧
    a.size ≤ (MaxWorkspaceReq a b).size ∧
    b.size ≤ (MaxWorkspaceReq a b).size ∧
    (∀ y, (MaxWorkspaceReq a b).alignment ∣ y → max a.size b.size ≤ y →
      (MaxWorkspaceReq a b).size ≤ y) ∧
    MaxWorkspaceReq ⟨100, 16⟩ ⟨50, 32⟩ = ⟨128, 32⟩ ∧
    (∀ A B : WorkspaceRequirements,
      MaxWorkspaceReqs A B =
        ⟨MaxWorkspaceReq A.hostMem B.hostMem, MaxWorkspaceReq A.pinnedMem B.pinnedMem,
          MaxWorkspaceReq A.cudaMem B.cudaMem⟩) := by
  have hal : 0 < max a.alignment b.alignment := Nat.lt_of_lt_of_le ha.pos (Nat.le_max_left _ _)
  rw [maxWorkspaceReq_eq]
  refine ⟨rfl, rfl, alignUp_dvd _ _, ?_, ?_, ?_, by decide, fun A B => rfl⟩
  · exact Nat.le_trans (Nat.le_max_left _ _) (le_alignUp hal _)
  · exact Nat.le_trans (Nat.le_max_right _ _) (le_alignUp hal _)
  · intro y hdvd hle
    exact alignUp_le hal hdvd hle

/-- Witness for C3 at the spec's worked example. -/
theorem maxWorkspaceReq_spec_witness :
    IsPow2 (16 : Nat) ∧ IsPow2 (32 : Nat) ∧
    ((MaxWorkspaceReq ⟨100, 16⟩ ⟨50, 32⟩).alignment = max 16 32 ∧
     (MaxWorkspaceReq ⟨100, 16⟩ ⟨50, 32⟩).size = AlignUp (max 100 50) (max 16 32) ∧
     (MaxWorkspaceReq ⟨100, 16⟩ ⟨50, 32⟩).alignment ∣ (MaxWorkspaceReq ⟨100, 16⟩ ⟨50, 32⟩).size ∧
     (100 : Nat) ≤ (MaxWorkspaceReq ⟨100, 16⟩ ⟨50, 32⟩).size ∧
     (50 : Nat) ≤ (MaxWorkspaceReq ⟨100, 16⟩ ⟨50, 32⟩).size ∧
     (∀ y, (MaxWorkspaceReq ⟨100, 16⟩ ⟨50, 32⟩).alignment ∣ y → max 100 50 ≤ y →
       (MaxWorkspaceReq ⟨100, 16⟩ ⟨50, 32⟩).size ≤ y) ∧
     MaxWorkspaceReq ⟨100, 16⟩ ⟨50, 32⟩ = ⟨128, 32⟩ ∧
     (∀ A B : WorkspaceRequirements,
       MaxWorkspaceReqs A B =
         ⟨MaxWorkspaceReq A.hostMem B.hostMem, MaxWorkspaceReq A.pinnedMem B.pinnedMem,
           MaxWorkspaceReq A.cudaMem B.cudaMem⟩)) :=
  ⟨⟨4, rfl⟩, ⟨5, rfl⟩, maxWorkspaceReq_spec ⟨100, 16⟩ ⟨50, 32⟩ ⟨4, rfl⟩ ⟨5, rfl⟩⟩

theorem maxWorkspaceReq_size_assoc {sa sb sc aa ab ac : Nat}
    (hpa : IsPow2 aa) (hpb : IsPow2 ab) (hpc : IsPow2 ac) :
    AlignUp (max (AlignUp (max sa sb) (max aa ab)) sc) (max (max aa ab) ac) =
      AlignUp (max sa (AlignUp (max sb sc) (max ab ac))) (max aa (max ab ac)) := by
  have pab : IsPow2 (max aa ab) := hpa.max hpb
  have pbc : IsPow2 (max ab ac) := hpb.max hpc
  have pM : IsPow2 (max (max aa ab) ac) := pab.max hpc
  have hM : max (max aa ab) ac = max aa (max ab ac) := Nat.max_assoc aa ab ac
  have pM' : IsPow2 (max aa (max ab ac)) := hM ▸ pM
  have hL : AlignUp (max (AlignUp (max sa sb) (max aa ab)) sc) (max (max aa ab) ac) =
      AlignUp (max (max sa sb) sc) (max (max aa ab) ac) := by
    rw [alignUp_max pM.pos, alignUp_alignUp pab.pos pM.pos
      (pab.dvd_of_le pM (Nat.le_max_left _ _)), ← alignUp_max pM.pos]
  have hR : AlignUp (max sa (AlignUp (max sb sc) (max ab ac))) (max aa (max ab ac)) =
      AlignUp (max sa (max sb sc)) (max aa (max ab ac)) := by
    rw [alignUp_max pM'.pos, alignUp_alignUp pbc.pos pM'.pos
      (pbc.dvd_of_le pM' (Nat.le_max_right _ _)), ← alignUp_max pM'.pos]
  rw [hL, hR, Nat.max_assoc, hM]

/-- Claim C6: over valid requirements (power-of-two alignment, size a multiple
of the alignment when nonzero), `MaxWorkspaceReq` is commutative, associative,
idempotent, and has `{size:0, alignment:1}` as a right neutral element. -/
theorem maxWorkspaceReq_algebra (a b c : WorkspaceMemRequirements)
    (ha : ValidReq a) (hb : ValidReq b) (hc : ValidReq c) :
    MaxWorkspaceReq a b = MaxWorkspaceReq b a ∧
    MaxWorkspaceReq (MaxWorkspaceReq a b) c = MaxWorkspaceReq a (MaxWorkspaceReq b c) ∧
    MaxWorkspaceReq a a = a ∧
    MaxWorkspaceReq a ⟨0, 1⟩ = a := by
  obtain ⟨hpa, hda⟩ := ha
  obtain ⟨hpb, _⟩ := hb
  obtain ⟨hpc, _⟩ := hc
  have hdvd : a.alignment ∣ a.size := by
    by_cases h0 : a.size = 0
    · rw [h0]; exact dvd_zero _
    · exact hda h0
  refine ⟨?_, ?_, ?_, ?_⟩
  · simp only [maxWorkspaceReq_eq]
    rw [Nat.max_comm a.size, Nat.max_comm a.alignment]
  · simp only [maxWorkspaceReq_eq]
    simp only [WorkspaceMemRequirements.mk.injEq]
    exact ⟨maxWorkspaceReq_size_assoc hpa hpb hpc, Nat.max_assoc _ _ _⟩
  · rw [maxWorkspaceReq_eq, Nat.max_self, Nat.max_self, alignUp_eq_self hpa.pos hdvd]
  · rw [maxWorkspaceReq_eq]
    have h1 : max a.size (0 : Nat) = a.size := Nat.max_eq_left (Nat.zero_le _)
    have h2 : max a.alignment 1 = a.alignment := Nat.max_eq_left hpa.pos
    rw [show ((⟨0, 1⟩ : WorkspaceMemRequirements).size) = 0 from rfl,
      show ((⟨0, 1⟩ : WorkspaceMemRequirements).alignment) = 1 from rfl, h1, h2,
      alignUp_eq_self hpa.pos hdvd]

/-- Witness for C6 at concrete valid requirements. -/
theorem maxWorkspaceReq_algebra_witness :
    ValidReq ⟨64, 16⟩ ∧ ValidReq ⟨24, 8⟩ ∧ ValidReq ⟨4, 4⟩ ∧
    (MaxWorkspaceReq ⟨64, 16⟩ ⟨24, 8⟩ = MaxWorkspaceReq ⟨24, 8⟩ ⟨64, 16⟩ ∧
     MaxWorkspaceReq (MaxWorkspaceReq ⟨64, 16⟩ ⟨24, 8⟩) ⟨4, 4⟩ =
       MaxWorkspaceReq ⟨64, 16⟩ (MaxWorkspaceReq ⟨24, 8⟩ ⟨4, 4⟩) ∧
     MaxWorkspaceReq ⟨64, 16⟩ ⟨64, 16⟩ = ⟨64, 16⟩ ∧
     MaxWorkspaceReq ⟨64, 16⟩ ⟨0, 1⟩ = ⟨64, 16⟩) :=
  ⟨⟨⟨4, rfl⟩, fun _ => by decide⟩, ⟨⟨3, rfl⟩, fun _ => by decide⟩, ⟨⟨2, rfl⟩, fun _ => by decide⟩,
    maxWorkspaceReq_algebra ⟨64, 16⟩ ⟨24, 8⟩ ⟨4, 4⟩
      ⟨⟨4, rfl⟩, fun _ => by decide⟩ ⟨⟨3, rfl⟩, fun _ => by decide⟩ ⟨⟨2, rfl⟩, fun _ => by decide⟩⟩

/-- Claim C9 is false as stated: the input pair `a = {size:0, alignment:3}`,
`b = {size:4, alignment:2}` satisfies the spec's precondition (a zero-size
requirement may carry an arbitrary alignment, and `2` is a power of two), yet
the third assertion of `MaxWorkspaceReq` fires, because
`max(3, 2) = 3` is not a power of two. -/
theorem maxWorkspaceReq_asserts_cex :
    MergePre ⟨0, 3⟩ ⟨4, 2⟩ ∧ maxWorkspaceReqAssertsOk ⟨0, 3⟩ ⟨4, 2⟩ = false :=
  ⟨⟨Or.inl rfl, Or.inr ⟨1, rfl⟩⟩, by decide⟩

/-- Claim C9 (amended): when both arguments' alignments are powers of two —
regardless of sizes — none of the fail-fast assertions in `MaxWorkspaceReq`
fires; contrapositively, the fail-fast path is reachable only on input pairs
in which some argument's alignment is not a power of two (which includes
zero-size requirements carrying a non-power-of-two alignment, so the original
precondition's zero-size exemption does not keep the assertions quiet). -/
theorem maxWorkspaceReq_asserts_amended (a b : WorkspaceMemRequirements)
    (ha : IsPow2 a.alignment) (hb : IsPow2 b.alignment) :
    maxWorkspaceReqAssertsOk a b = true := by
  unfold maxWorkspaceReqAssertsOk
  have h3 : (if b.alignment > a.alignment then b.alignment else a.alignment) &&&
      ((if b.alignment > a.alignment then b.alignment else a.alignment) - 1) = 0 := by
    rw [if_gt_eq_max]
    exact (ha.max hb).land_pred
  simp only [h3, Bool.and_eq_true, Bool.or_eq_true, decide_eq_true_eq, beq_iff_eq]
  exact ⟨Or.inr ha.pos, Or.inr hb.pos, trivial⟩

/-- Witness for the amended C9. -/
theorem maxWorkspaceReq_asserts_amended_witness :
    IsPow2 (8 : Nat) ∧ IsPow2 (2 : Nat) ∧ maxWorkspaceReqAssertsOk ⟨0, 8⟩ ⟨4, 2⟩ = true :=
  ⟨⟨3, rfl⟩, ⟨1, rfl⟩, maxWorkspaceReq_asserts_amended ⟨0, 8⟩ ⟨4, 2⟩ ⟨3, rfl⟩ ⟨1, rfl⟩⟩

/-- The three memory spaces of a workspace. -/
inductive MemSpace
  | host
  | pinned
  | cuda
deriving DecidableEq

/-- Modelled from the spec: `NVCVWorkspaceMem` (from the missing `Workspace.h`):
a recorded requirement, a data pointer (`none` = null) and an optional
readiness event handle (`none` = null `cudaEvent_t`).  Pointers and event
handles are abstracted as natural numbers. -/
structure WorkspaceMem where
  req : WorkspaceMemRequirements := ⟨0, 0⟩
  data : Option Nat := none
  ready : Option Nat := none
deriving DecidableEq

/-- Modelled from the spec: `NVCVWorkspace` (from the missing `Workspace.h`):
one block per memory space; `{}` is the zero-initialized struct. -/
structure Workspace where
  hostMem : WorkspaceMem := {}
  pinnedMem : WorkspaceMem := {}
  cudaMem : WorkspaceMem := {}
deriving DecidableEq

/-- Calls made by the workspace core to its collaborators: `allocMem` is a call
to the per-space allocator's `alloc`, `waitEvent` a call to
`cudaEventSynchronize` on a readiness event, `freeMem` a call to the per-space
allocator's `free`. -/
inductive Event
  | allocMem (s : MemSpace) (size alignment : Nat)
  | waitEvent (s : MemSpace) (ev : Nat)
  | freeMem (s : MemSpace) (ptr : Nat) (size alignment : Nat)
deriving DecidableEq

/-- The memory space an event concerns. -/
def Event.space : Event → MemSpace
  | .allocMem s _ _ => s
  | .waitEvent s _ => s
  | .freeMem s _ _ _ => s

/-- Block selector by memory space. -/
def Workspace.memOf (ws : Workspace) : MemSpace → WorkspaceMem
  | .host => ws.hostMem
  | .pinned => ws.pinnedMem
  | .cuda => ws.cudaMem

/-- Number of `free` calls for space `s` in a trace. -/
def freeCount (tr : List Event) (s : MemSpace) : Nat :=
  (tr.filter fun e => match e with
    | Event.freeMem s' _ _ _ => s' == s
    | _ => false).length

/-- Number of `alloc` calls for space `s` in a trace. -/
def allocCount (tr : List Event) (s : MemSpace) : Nat :=
  (tr.filter fun e => match e with
    | Event.allocMem s' _ _ => s' == s
    | _ => false).length

/-- One `if (ws.xMem.data) { ... }` block of the deleter lambda in
`AllocateWorkspace` (Workspace.hpp lines 154-177): wait on the readiness event
if present (`sync` models `cudaEventSynchronize`; a failed wait throws
`std::runtime_error`, modelled by the `false` flag), then free the data with
the recorded requirement and null the pointer.  Returns the events emitted,
the updated block, and `true` iff no exception was thrown. -/
def delMem (sync : Nat → Bool) (s : MemSpace) (m : WorkspaceMem) :
    List Event × WorkspaceMem × Bool :=
  match m.data with
  | none => ([], m, true)
  | some p =>
    match m.ready with
    | none => ([Event.freeMem s p m.req.size m.req.alignment], { m with data := none }, true)
    | some ev =>
      if sync ev then
        ([Event.waitEvent s ev, Event.freeMem s p m.req.size m.req.alignment],
          { m with data := none }, true)
      else
        ([Event.waitEvent s ev], m, false)

/-- The deleter lambda of `AllocateWorkspace` (lines 151-178): processes the
host, pinned and cuda blocks in that order, stopping at the first failed
readiness wait (the thrown `std::runtime_error` propagates). -/
def del (sync : Nat → Bool) (ws : Workspace) : List Event × Workspace × Bool :=
  let r1 := delMem sync .host ws.hostMem
  let ws1 := { ws with hostMem := r1.2.1 }
  if r1.2.2 then
    let r2 := delMem sync .pinned ws1.pinnedMem
    let ws2 := { ws1 with pinnedMem := r2.2.1 }
    if r2.2.2 then
      let r3 := delMem sync .cuda ws2.cudaMem
      (r1.1 ++ r2.1 ++ r3.1, { ws2 with cudaMem := r3.2.1 }, r3.2.2)
    else (r1.1 ++ r2.1, ws2, false)
  else (r1.1, ws1, false)

/-- The type of the release action `UniqueWorkspace::Deleter`
(`std::function<void(NVCVWorkspace &)>`), as a state-passing function
returning its emitted events, the updated workspace and a normal-completion
flag (`false` = it threw). -/
def DelFun : Type :=
  Workspace → List Event × Workspace × Bool

/-- The class `cvcuda::UniqueWorkspace` (Workspace.hpp lines 71-136): the wrapped
workspace and the optional release action (`none` = empty `std::function`);
`{}` is the default-constructed object. -/
structure UniqueWorkspace where
  m_impl : Workspace := {}
  m_del : Option DelFun := none

/-- The accessor `UniqueWorkspace::get` (lines 122-125). -/
def UniqueWorkspace.get (u : UniqueWorkspace) : Workspace :=
  u.m_impl

/-- The member `UniqueWorkspace::reset` (lines 112-120), also run by the destructor (lines
107-110): if a release action is present, run it on the wrapped workspace and
clear both members.  `reset` is `noexcept`, so a throwing release action
terminates the program: modelled by the `false` flag, after which no further
transition is meaningful. -/
def UniqueWorkspace.reset (u : UniqueWorkspace) : List Event × UniqueWorkspace × Bool :=
  match u.m_del with
  | none => ([], u, true)
  | some d =>
    let r := d u.m_impl
    if r.2.2 then (r.1, {}, true)
    else (r.1, { m_impl := r.2.1, m_del := some d }, false)

/-- The move constructor (lines 81-84): member-initializes an empty object and
swaps with the source.  Returns (constructed object, source afterwards). -/
def UniqueWorkspace.moveCtor (src : UniqueWorkspace) : UniqueWorkspace × UniqueWorkspace :=
  ({ m_impl := src.m_impl, m_del := src.m_del }, {})

/-- Move assignment (lines 88-93): swap with the source, then reset the source
(which now holds the destination's previous contents).  Returns (destination
afterwards, source afterwards, events of the embedded reset, completion
flag). -/
def UniqueWorkspace.moveAssign (dst src : UniqueWorkspace) :
    UniqueWorkspace × UniqueWorkspace × List Event × Bool :=
  let dst1 : UniqueWorkspace := { m_impl := src.m_impl, m_del := src.m_del }
  let src1 : UniqueWorkspace := { m_impl := dst.m_impl, m_del := dst.m_del }
  let r := src1.reset
  (dst1, r.2.1, r.1, r.2.2)

/-- One conditional allocation of `AllocateWorkspace` (lines 186-191): if the
requirement's size is nonzero, call the space's allocator (`none` = the
allocator threw) and store the returned pointer.  Returns the alloc events
emitted and `none` when the allocation threw. -/
def allocStep (alloc : MemSpace → Nat → Nat → Option Nat) (s : MemSpace)
    (r : WorkspaceMemRequirements) (m : WorkspaceMem) :
    List Event × Option WorkspaceMem :=
  if r.size ≠ 0 then
    match alloc s r.size r.alignment with
    | some p => ([Event.allocMem s r.size r.alignment], some { m with data := some p })
    | none => ([Event.allocMem s r.size r.alignment], none)
  else ([], some m)

/-- The function `cvcuda::AllocateWorkspace` (lines 144-199) for a given allocator: record
the requirements into a zero-initialized workspace, allocate the three spaces
in order, and on any failure run the deleter on the partially populated
workspace (the `catch (...)` rollback, lines 194-198) and propagate the
failure (`none`).  The default-allocator substitution for an empty `alloc`
argument (lines 146-150) is outside the model: the allocator is always passed
explicitly. -/
def allocateWorkspace (alloc : MemSpace → Nat → Nat → Option Nat) (sync : Nat → Bool)
    (req : WorkspaceRequirements) : List Event × Option UniqueWorkspace :=
  let ws0 : Workspace :=
    { hostMem := { req := req.hostMem }, pinnedMem := { req := req.pinnedMem },
      cudaMem := { req := req.cudaMem } }
  match allocStep alloc .host req.hostMem ws0.hostMem with
  | (e1, none) => (e1 ++ (del sync ws0).1, none)
  | (e1, some h) =>
    let ws1 := { ws0 with hostMem := h }
    match allocStep alloc .pinned req.pinnedMem ws1.pinnedMem with
    | (e2, none) => (e1 ++ e2 ++ (del sync ws1).1, none)
    | (e2, some p) =>
      let ws2 := { ws1 with pinnedMem := p }
      match allocStep alloc .cuda req.cudaMem ws2.cudaMem with
      | (e3, none) => (e1 ++ e2 ++ e3 ++ (del sync ws2).1, none)
      | (e3, some c) =>
        let ws3 := { ws2 with cudaMem := c }
        (e1 ++ e2 ++ e3, some { m_impl := ws3, m_del := some (del sync) })

/-- The `free` call a block gives rise to during release: one call with the
recorded requirement when the data pointer is non-null, none otherwise. -/
def optFree (s : MemSpace) (m : WorkspaceMem) : List Event :=
  match m.data with
  | none => []
  | some p => [Event.freeMem s p m.req.size m.req.alignment]

/-- The readiness wait a block gives rise to during release: one wait when both
the data pointer and the readiness event are present. -/
def optWait (s : MemSpace) (m : WorkspaceMem) : List Event :=
  match m.data, m.ready with
  | some _, some ev => [Event.waitEvent s ev]
  | _, _ => []

/-- All readiness waits that release could issue for this block succeed
(vacuously true when the block has no readiness event). -/
def readyOk (sync : Nat → Bool) (m : WorkspaceMem) : Prop :=
  ∀ ev, m.ready = some ev → sync ev = true

/-- Requirement selector by memory space. -/
def WorkspaceRequirements.memOf (req : WorkspaceRequirements) :
    MemSpace → WorkspaceMemRequirements
  | .host => req.hostMem
  | .pinned => req.pinnedMem
  | .cuda => req.cudaMem

theorem freeCount_append (t1 t2 : List Event) (s : MemSpace) :
    freeCount (t1 ++ t2) s = freeCount t1 s + freeCount t2 s := by
  unfold freeCount
  rw [List.filter_append, List.length_append]

theorem allocCount_append (t1 t2 : List Event) (s : MemSpace) :
    allocCount (t1 ++ t2) s = allocCount t1 s + allocCount t2 s := by
  unfold allocCount
  rw [List.filter_append, List.length_append]

theorem freeCount_optWait (s s' : MemSpace) (m : WorkspaceMem) :
    freeCount (optWait s m) s' = 0 := by
  unfold optWait
  cases m.data <;> cases m.ready <;> simp [freeCount]

theorem freeCount_optFree (s s' : MemSpace) (m : WorkspaceMem) :
    freeCount (optFree s m) s' = if s = s' ∧ m.data.isSome = true then 1 else 0 := by
  unfold optFree
  cases hd : m.data with
  | none => simp [freeCount]
  | some p =>
    by_cases hss : s = s'
    · simp [freeCount, hss]
    · simp [freeCount, hss, fun h => hss (beq_iff_eq.mp h)]

theorem delMem_trace_ok (sync : Nat → Bool) (s : MemSpace) (m : WorkspaceMem)
    (h : readyOk sync m) :
    (delMem sync s m).1 = optWait s m ++ optFree s m ∧ (delMem sync s m).2.2 = true := by
  unfold delMem optWait optFree
  cases hd : m.data with
  | none => simp
  | some p =>
    cases hr : m.ready with
    | none => simp
    | some ev => simp [h ev hr]

theorem del_trace_ok (sync : Nat → Bool) (ws : Workspace)
    (hH : readyOk sync ws.hostMem) (hP : readyOk sync ws.pinnedMem)
    (hC : readyOk sync ws.cudaMem) :
    (del sync ws).1 =
      (optWait .host ws.hostMem ++ optFree .host ws.hostMem) ++
      (optWait .pinned ws.pinnedMem ++ optFree .pinned ws.pinnedMem) ++
      (optWait .cuda ws.cudaMem ++ optFree .cuda ws.cudaMem) ∧
    (del sync ws).2.2 = true := by
  obtain ⟨th, oh⟩ := delMem_trace_ok sync .host ws.hostMem hH
  obtain ⟨tp, op⟩ := delMem_trace_ok sync .pinned ws.pinnedMem hP
  obtain ⟨tc, oc⟩ := delMem_trace_ok sync .cuda ws.cudaMem hC
  unfold del
  simp [oh, op, oc, th, tp, tc]

theorem del_freeCount (sync : Nat → Bool) (ws : Workspace)
    (hH : readyOk sync ws.hostMem) (hP : readyOk sync ws.pinnedMem)
    (hC : readyOk sync ws.cudaMem) (s : MemSpace) :
    freeCount (del sync ws).1 s =
      if ((ws.memOf s).data).isSome = true then 1 else 0 := by
  rw [(del_trace_ok sync ws hH hP hC).1]
  rw [freeCount_append, freeCount_append, freeCount_append, freeCount_append,
    freeCount_append]
  rw [freeCount_optWait, freeCount_optWait, freeCount_optWait,
    freeCount_optFree, freeCount_optFree, freeCount_optFree]
  cases s <;> simp [Workspace.memOf]

theorem readyOk_of_sync {sync : Nat → Bool} (h : ∀ ev, sync ev = true)
    (m : WorkspaceMem) : readyOk sync m :=
  fun ev _ => h ev

/-- Claim C2: release is idempotent.  With a release action present that
completes normally, the first `reset` invokes the action exactly once (the
emitted events are exactly one run of the action) and transitions to the empty
object; afterwards the workspace observed via `get` is the all-null state, the
action is cleared, and a further `reset` is a no-op emitting no events.  With
the deleter built by `AllocateWorkspace` and all readiness waits succeeding,
that single run frees each allocated block exactly once. -/
theorem reset_idempotent (ws0 : Workspace) (d : DelFun) (hok : (d ws0).2.2 = true) :
    (UniqueWorkspace.mk ws0 (some d)).reset = ((d ws0).1, ({} : UniqueWorkspace), true) ∧
    (UniqueWorkspace.mk ws0 (some d)).reset.2.1.get = ({} : Workspace) ∧
    (UniqueWorkspace.mk ws0 (some d)).reset.2.1.m_del = none ∧
    (UniqueWorkspace.mk ws0 (some d)).reset.2.1.reset = ([], ({} : UniqueWorkspace), true) ∧
    (∀ sync : Nat → Bool, (∀ ev, sync ev = true) →
      ∀ s, freeCount (del sync ws0).1 s =
        if ((ws0.memOf s).data).isSome = true then 1 else 0) := by
  have h1 : (UniqueWorkspace.mk ws0 (some d)).reset =
      ((d ws0).1, ({} : UniqueWorkspace), true) := by
    unfold UniqueWorkspace.reset
    simp [hok]
  refine ⟨h1, ?_, ?_, ?_, ?_⟩
  · rw [h1]; rfl
  · rw [h1]
  · rw [h1]; rfl
  intro sync hsync s
  exact del_freeCount sync ws0 (readyOk_of_sync hsync _) (readyOk_of_sync hsync _)
    (readyOk_of_sync hsync _) s

/-- The always-succeeding readiness environment (every `cudaEventSynchronize`
call returns `cudaSuccess`). -/
def syncT : Nat → Bool :=
  fun _ => true

/-- A sample workspace: an allocated host block with a pending readiness
event, an empty pinned block, and an allocated cuda block with no readiness
event. -/
def wsEx : Workspace where
  hostMem := { req := ⟨16, 8⟩, data := some 1, ready := some 5 }
  pinnedMem := { req := ⟨0, 1⟩ }
  cudaMem := { req := ⟨32, 8⟩, data := some 2 }

/-- Witness for C2 at a concrete workspace and deleter. -/
theorem reset_idempotent_witness :
    (del syncT wsEx).2.2 = true ∧
    ((UniqueWorkspace.mk wsEx (some (del syncT))).reset =
        ((del syncT wsEx).1, ({} : UniqueWorkspace), true) ∧
      (UniqueWorkspace.mk wsEx (some (del syncT))).reset.2.1.get = ({} : Workspace) ∧
      (UniqueWorkspace.mk wsEx (some (del syncT))).reset.2.1.m_del = none ∧
      (UniqueWorkspace.mk wsEx (some (del syncT))).reset.2.1.reset =
        ([], ({} : UniqueWorkspace), true) ∧
      (∀ sync : Nat → Bool, (∀ ev, sync ev = true) →
        ∀ s, freeCount (del sync wsEx).1 s =
          if ((wsEx.memOf s).data).isSome = true then 1 else 0)) :=
  ⟨rfl, reset_idempotent wsEx (del syncT) rfl⟩

/-- Every event of the trace concerns space `s`. -/
def spaceOnly (s : MemSpace) (tr : List Event) : Prop :=
  ∀ e ∈ tr, e.space = s

/-- Whenever the trace contains a `free` of the block and the block has a
readiness event, the trace is exactly the wait on that event followed by the
`free` — the free is sequenced strictly after the wait returned. -/
def waitThenFree (s : MemSpace) (m : WorkspaceMem) (tr : List Event) : Prop :=
  ∀ p sz al, Event.freeMem s p sz al ∈ tr →
    ∀ ev, m.ready = some ev → tr = [Event.waitEvent s ev, Event.freeMem s p sz al]

theorem delMem_shape (sync : Nat → Bool) (s : MemSpace) (m : WorkspaceMem) :
    spaceOnly s (delMem sync s m).1 ∧ waitThenFree s m (delMem sync s m).1 := by
  cases hd : m.data with
  | none =>
    constructor <;> simp [delMem, hd, spaceOnly, waitThenFree]
  | some p =>
    cases hr : m.ready with
    | none =>
      constructor
      · simp [delMem, hd, hr, spaceOnly, Event.space]
      · intro p' sz al _ ev hev
        rw [hr] at hev
        cases hev
    | some ev =>
      by_cases hs : sync ev = true
      · constructor
        · simp [delMem, hd, hr, hs, spaceOnly, Event.space]
        · intro p' sz al hmem ev' hev'
          rw [hr] at hev'
          injection hev' with hev'
          subst hev'
          simp [delMem, hd, hr, hs] at hmem ⊢
          obtain ⟨h1, h2, h3⟩ := hmem
          simp [h1, h2, h3]
      · constructor
        · simp [delMem, hd, hr, hs, spaceOnly, Event.space]
        · intro p' sz al hmem ev' hev'
          simp [delMem, hd, hr, hs] at hmem

/-- Claim C5: in every run of the release action, the emitted events decompose
as host events, then pinned events, then cuda events, and within each block a
`free` is emitted only immediately after the block's own readiness wait has
returned (when the block carries a readiness event). -/
theorem del_release_order (sync : Nat → Bool) (ws : Workspace) :
    ∃ th tp tc : List Event,
      (del sync ws).1 = th ++ tp ++ tc ∧
      spaceOnly .host th ∧ spaceOnly .pinned tp ∧ spaceOnly .cuda tc ∧
      waitThenFree .host ws.hostMem th ∧ waitThenFree .pinned ws.pinnedMem tp ∧
      waitThenFree .cuda ws.cudaMem tc := by
  obtain ⟨sh, wh⟩ := delMem_shape sync .host ws.hostMem
  obtain ⟨sp, wp⟩ := delMem_shape sync .pinned ws.pinnedMem
  obtain ⟨sc, wc⟩ := delMem_shape sync .cuda ws.cudaMem
  by_cases h1 : (delMem sync .host ws.hostMem).2.2 = true
  · by_cases h2 : (delMem sync .pinned ws.pinnedMem).2.2 = true
    · refine ⟨(delMem sync .host ws.hostMem).1, (delMem sync .pinned ws.pinnedMem).1,
        (delMem sync .cuda ws.cudaMem).1, ?_, sh, sp, sc, wh, wp, wc⟩
      simp [del, h1, h2]
    · refine ⟨(delMem sync .host ws.hostMem).1, (delMem sync .pinned ws.pinnedMem).1,
        [], ?_, sh, sp, by simp [spaceOnly], wh, wp, by simp [waitThenFree]⟩
      simp [del, h1, h2]
  · refine ⟨(delMem sync .host ws.hostMem).1, [], [], ?_, sh, by simp [spaceOnly],
      by simp [spaceOnly], wh, by simp [waitThenFree], by simp [waitThenFree]⟩
    simp [del, h1]

/-- The event is a readiness wait whose `cudaEventSynchronize` call failed. -/
def failedWait (sync : Nat → Bool) : Event → Prop
  | Event.waitEvent _ ev => sync ev = false
  | _ => False

theorem delMem_ok_no_failedWait (sync : Nat → Bool) (s : MemSpace) (m : WorkspaceMem)
    (h : (delMem sync s m).2.2 = true) :
    ∀ e ∈ (delMem sync s m).1, ¬ failedWait sync e := by
  cases hd : m.data with
  | none => simp [delMem, hd]
  | some p =>
    cases hr : m.ready with
    | none => simp [delMem, hd, hr, failedWait]
    | some ev =>
      by_cases hs : sync ev = true
      · simp [delMem, hd, hr, hs, failedWait]
      · rw [delMem] at h
        simp [hd, hr, hs] at h

theorem delMem_fail_shape (sync : Nat → Bool) (s : MemSpace) (m : WorkspaceMem)
    (h : (delMem sync s m).2.2 = false) :
    ∃ ev, m.ready = some ev ∧ sync ev = false ∧
      (delMem sync s m).1 = [Event.waitEvent s ev] := by
  cases hd : m.data with
  | none => rw [delMem] at h; simp [hd] at h
  | some p =>
    cases hr : m.ready with
    | none => rw [delMem] at h; simp [hd, hr] at h
    | some ev =>
      by_cases hs : sync ev = true
      · rw [delMem] at h; simp [hd, hr, hs] at h
      · exact ⟨ev, rfl, by simpa using hs, by simp [delMem, hd, hr, hs]⟩

theorem not_mem_of_spaceOnly {s' : MemSpace} {tr : List Event} (h : spaceOnly s' tr)
    {e : Event} (he : e.space ≠ s') : e ∉ tr :=
  fun hm => he (h e hm)

/-- Claim C4: a failed readiness wait makes the release action escalate
instead of continuing: the action completes abnormally (throws) exactly when
its trace contains a failed wait, and in that case the trace ends at the
failed wait — in particular no `free` for the failing block's space was
issued, before or after the wait. -/
theorem del_wait_failure_fatal (sync : Nat → Bool) (ws : Workspace) :
    ((del sync ws).2.2 = false ↔ ∃ e ∈ (del sync ws).1, failedWait sync e) ∧
    ((del sync ws).2.2 = false →
      ∃ s ev, (del sync ws).1.getLast? = some (Event.waitEvent s ev) ∧ sync ev = false ∧
        ∀ p sz al, Event.freeMem s p sz al ∉ (del sync ws).1) := by
  obtain ⟨sh, _⟩ := delMem_shape sync .host ws.hostMem
  obtain ⟨sp, _⟩ := delMem_shape sync .pinned ws.pinnedMem
  by_cases h1 : (delMem sync .host ws.hostMem).2.2 = true
  · by_cases h2 : (delMem sync .pinned ws.pinnedMem).2.2 = true
    · have htr : (del sync ws).1 =
          (delMem sync .host ws.hostMem).1 ++ (delMem sync .pinned ws.pinnedMem).1 ++
          (delMem sync .cuda ws.cudaMem).1 := by
        simp [del, h1, h2]
      by_cases h3 : (delMem sync .cuda ws.cudaMem).2.2 = true
      · -- all blocks released normally: no failed wait anywhere
        have hok : (del sync ws).2.2 = true := by simp [del, h1, h2, h3]
        have hnex : ¬ ∃ e ∈ (del sync ws).1, failedWait sync e := by
          rintro ⟨e, hmem, hfail⟩
          rw [htr] at hmem
          rcases List.mem_append.mp hmem with hm | hm
          · rcases List.mem_append.mp hm with hm' | hm'
            · exact delMem_ok_no_failedWait sync .host ws.hostMem h1 e hm' hfail
            · exact delMem_ok_no_failedWait sync .pinned ws.pinnedMem h2 e hm' hfail
          · exact delMem_ok_no_failedWait sync .cuda ws.cudaMem h3 e hm hfail
        exact ⟨iff_of_false (by simp [hok]) hnex, fun hf => absurd hf (by simp [hok])⟩
      · -- the cuda wait failed
        have hb3 : (delMem sync .cuda ws.cudaMem).2.2 = false := by simpa using h3
        obtain ⟨ev, hr, hsev, htr3⟩ := delMem_fail_shape sync .cuda ws.cudaMem hb3
        have hok : (del sync ws).2.2 = false := by simp [del, h1, h2, hb3]
        have hex : ∃ e ∈ (del sync ws).1, failedWait sync e := by
          refine ⟨Event.waitEvent .cuda ev, ?_, by simp [failedWait, hsev]⟩
          rw [htr, htr3]
          simp
        refine ⟨iff_of_true hok hex, fun _ => ⟨.cuda, ev, ?_, hsev, ?_⟩⟩
        · rw [htr, htr3, List.append_assoc, List.getLast?_append, List.getLast?_append]
          rfl
        · intro p sz al
          rw [htr, htr3]
          intro hmem
          rcases List.mem_append.mp hmem with hm | hm
          · rcases List.mem_append.mp hm with hm' | hm'
            · exact not_mem_of_spaceOnly sh (by simp [Event.space]) hm'
            · exact not_mem_of_spaceOnly sp (by simp [Event.space]) hm'
          · simp at hm
    · -- the pinned wait failed
      have hb2 : (delMem sync .pinned ws.pinnedMem).2.2 = false := by simpa using h2
      obtain ⟨ev, hr, hsev, htr2⟩ := delMem_fail_shape sync .pinned ws.pinnedMem hb2
      have htr : (del sync ws).1 =
          (delMem sync .host ws.hostMem).1 ++ (delMem sync .pinned ws.pinnedMem).1 := by
        simp [del, h1, hb2]
      have hok : (del sync ws).2.2 = false := by simp [del, h1, hb2]
      have hex : ∃ e ∈ (del sync ws).1, failedWait sync e := by
        refine ⟨Event.waitEvent .pinned ev, ?_, by simp [failedWait, hsev]⟩
        rw [htr, htr2]
        simp
      refine ⟨iff_of_true hok hex, fun _ => ⟨.pinned, ev, ?_, hsev, ?_⟩⟩
      · rw [htr, htr2, List.getLast?_append]
        rfl
      · intro p sz al
        rw [htr, htr2]
        intro hmem
        rcases List.mem_append.mp hmem with hm | hm
        · exact not_mem_of_spaceOnly sh (by simp [Event.space]) hm
        · simp at hm
  · -- the host wait failed
    have hb1 : (delMem sync .host ws.hostMem).2.2 = false := by simpa using h1
    obtain ⟨ev, hr, hsev, htr1⟩ := delMem_fail_shape sync .host ws.hostMem hb1
    have htr : (del sync ws).1 = (delMem sync .host ws.hostMem).1 := by
      simp [del, hb1]
    have hok : (del sync ws).2.2 = false := by simp [del, hb1]
    have hex : ∃ e ∈ (del sync ws).1, failedWait sync e := by
      refine ⟨Event.waitEvent .host ev, ?_, by simp [failedWait, hsev]⟩
      rw [htr, htr1]
      simp
    refine ⟨iff_of_true hok hex, fun _ => ⟨.host, ev, ?_, hsev, ?_⟩⟩
    · rw [htr, htr1]
      rfl
    · intro p sz al
      rw [htr, htr1]
      simp

/-- Claim C7: moving transfers ownership exactly once.  After move
construction the source is the empty object (no blocks, no release action) and
releasing it is a no-op emitting no events; move assignment into a fresh
(default-constructed) destination transfers the contents and likewise leaves
the source empty, emitting no events; releasing the destination afterwards
completes normally, performs exactly one run of the original release action,
and frees each originally allocated block exactly once.  (Copy construction
and copy assignment are `= delete`d in the source, Workspace.hpp lines 79 and
86, so they have no counterpart in this model.) -/
theorem move_transfers_ownership (ws0 : Workspace) (sync : Nat → Bool)
    (hsync : ∀ ev, sync ev = true) :
    (UniqueWorkspace.mk ws0 (some (del sync))).moveCtor =
      (UniqueWorkspace.mk ws0 (some (del sync)), ({} : UniqueWorkspace)) ∧
    ({} : UniqueWorkspace).reset = ([], ({} : UniqueWorkspace), true) ∧
    UniqueWorkspace.moveAssign {} (UniqueWorkspace.mk ws0 (some (del sync))) =
      (UniqueWorkspace.mk ws0 (some (del sync)), ({} : UniqueWorkspace), [], true) ∧
    (UniqueWorkspace.mk ws0 (some (del sync))).reset.2.2 = true ∧
    (UniqueWorkspace.mk ws0 (some (del sync))).reset.1 = (del sync ws0).1 ∧
    (∀ s, freeCount (UniqueWorkspace.mk ws0 (some (del sync))).reset.1 s =
      if ((ws0.memOf s).data).isSome = true then 1 else 0) := by
  have hok : (del sync ws0).2.2 = true :=
    (del_trace_ok sync ws0 (readyOk_of_sync hsync _) (readyOk_of_sync hsync _)
      (readyOk_of_sync hsync _)).2
  have hreset : (UniqueWorkspace.mk ws0 (some (del sync))).reset =
      ((del sync ws0).1, ({} : UniqueWorkspace), true) := by
    unfold UniqueWorkspace.reset
    simp [hok]
  refine ⟨rfl, rfl, rfl, ?_, ?_, ?_⟩
  · rw [hreset]
  · rw [hreset]
  · intro s
    rw [hreset]
    exact del_freeCount sync ws0 (readyOk_of_sync hsync _) (readyOk_of_sync hsync _)
      (readyOk_of_sync hsync _) s

/-- Witness for C7 at a concrete workspace. -/
theorem move_transfers_ownership_witness :
    (∀ ev, syncT ev = true) ∧
    ((UniqueWorkspace.mk wsEx (some (del syncT))).moveCtor =
        (UniqueWorkspace.mk wsEx (some (del syncT)), ({} : UniqueWorkspace)) ∧
      ({} : UniqueWorkspace).reset = ([], ({} : UniqueWorkspace), true) ∧
      UniqueWorkspace.moveAssign {} (UniqueWorkspace.mk wsEx (some (del syncT))) =
        (UniqueWorkspace.mk wsEx (some (del syncT)), ({} : UniqueWorkspace), [], true) ∧
      (UniqueWorkspace.mk wsEx (some (del syncT))).reset.2.2 = true ∧
      (UniqueWorkspace.mk wsEx (some (del syncT))).reset.1 = (del syncT wsEx).1 ∧
      (∀ s, freeCount (UniqueWorkspace.mk wsEx (some (del syncT))).reset.1 s =
        if ((wsEx.memOf s).data).isSome = true then 1 else 0)) :=
  ⟨fun _ => rfl, move_transfers_ownership wsEx syncT (fun _ => rfl)⟩

/-- Claim C10: move assignment onto a destination that currently holds a
workspace and a release action runs the destination's old action exactly once
during the assignment (releasing its previous blocks, one `free` per allocated
block), and afterwards the source is empty while the destination holds the
source's previous contents. -/
theorem move_assign_releases_dst (wsD wsS : Workspace) (dS : Option DelFun)
    (sync : Nat → Bool) (hsync : ∀ ev, sync ev = true) :
    UniqueWorkspace.moveAssign (UniqueWorkspace.mk wsD (some (del sync)))
        (UniqueWorkspace.mk wsS dS) =
      (UniqueWorkspace.mk wsS dS, ({} : UniqueWorkspace), (del sync wsD).1, true) ∧
    (∀ s, freeCount (del sync wsD).1 s =
      if ((wsD.memOf s).data).isSome = true then 1 else 0) := by
  have hok : (del sync wsD).2.2 = true :=
    (del_trace_ok sync wsD (readyOk_of_sync hsync _) (readyOk_of_sync hsync _)
      (readyOk_of_sync hsync _)).2
  constructor
  · unfold UniqueWorkspace.moveAssign UniqueWorkspace.reset
    simp [hok]
  · intro s
    exact del_freeCount sync wsD (readyOk_of_sync hsync _) (readyOk_of_sync hsync _)
      (readyOk_of_sync hsync _) s

/-- Witness for C10 at a concrete destination and source. -/
theorem move_assign_releases_dst_witness :
    (∀ ev, syncT ev = true) ∧
    (UniqueWorkspace.moveAssign (UniqueWorkspace.mk wsEx (some (del syncT)))
        (UniqueWorkspace.mk {} none) =
      (UniqueWorkspace.mk {} none, ({} : UniqueWorkspace), (del syncT wsEx).1, true) ∧
    (∀ s, freeCount (del syncT wsEx).1 s =
      if ((wsEx.memOf s).data).isSome = true then 1 else 0)) :=
  ⟨fun _ => rfl, move_assign_releases_dst wsEx {} none syncT (fun _ => rfl)⟩

/-- The allocation step for this space does not throw: either the size is zero
(no allocator call is made) or the allocator call succeeds. -/
def stepOk (alloc : MemSpace → Nat → Nat → Option Nat) (s : MemSpace)
    (r : WorkspaceMemRequirements) : Prop :=
  r.size = 0 ∨ (alloc s r.size r.alignment).isSome = true

/-- The allocation step for this space actually allocates a block: the size is
nonzero and the allocator call succeeds. -/
def stepGot (alloc : MemSpace → Nat → Nat → Option Nat) (s : MemSpace)
    (r : WorkspaceMemRequirements) : Prop :=
  r.size ≠ 0 ∧ (alloc s r.size r.alignment).isSome = true

instance (alloc : MemSpace → Nat → Nat → Option Nat) (s : MemSpace)
    (r : WorkspaceMemRequirements) : Decidable (stepOk alloc s r) := by
  unfold stepOk
  exact inferInstance

instance (alloc : MemSpace → Nat → Nat → Option Nat) (s : MemSpace)
    (r : WorkspaceMemRequirements) : Decidable (stepGot alloc s r) := by
  unfold stepGot
  exact inferInstance

theorem allocStep_zero (alloc : MemSpace → Nat → Nat → Option Nat) (s : MemSpace)
    {r : WorkspaceMemRequirements} (h : r.size = 0) (m : WorkspaceMem) :
    allocStep alloc s r m = ([], some m) := by
  simp [allocStep, h]

theorem allocStep_some (alloc : MemSpace → Nat → Nat → Option Nat) (s : MemSpace)
    {r : WorkspaceMemRequirements} {p : Nat} (h : r.size ≠ 0)
    (hp : alloc s r.size r.alignment = some p) (m : WorkspaceMem) :
    allocStep alloc s r m =
      ([Event.allocMem s r.size r.alignment], some { m with data := some p }) := by
  simp [allocStep, h, hp]

theorem allocStep_fail (alloc : MemSpace → Nat → Nat → Option Nat) (s : MemSpace)
    {r : WorkspaceMemRequirements} (h : r.size ≠ 0)
    (hp : alloc s r.size r.alignment = none) (m : WorkspaceMem) :
    allocStep alloc s r m = ([Event.allocMem s r.size r.alignment], none) := by
  simp [allocStep, h, hp]

/-- Claim C1: when some allocation step fails, `AllocateWorkspace` propagates
the failure (no `UniqueWorkspace` reaches the caller) and the rollback frees
exactly the blocks that were already allocated, each exactly once: the host
block iff its step had allocated, the pinned block iff the host step passed
and the pinned step had allocated, and the cuda block never (a failure at the
cuda step happens before its block exists). -/
theorem allocateWorkspace_rollback (alloc : MemSpace → Nat → Nat → Option Nat)
    (sync : Nat → Bool) (req : WorkspaceRequirements)
    (hfail : ¬ (stepOk alloc .host req.hostMem ∧ stepOk alloc .pinned req.pinnedMem ∧
      stepOk alloc .cuda req.cudaMem)) :
    (allocateWorkspace alloc sync req).2 = none ∧
    freeCount (allocateWorkspace alloc sync req).1 .host =
      (if stepGot alloc .host req.hostMem then 1 else 0) ∧
    freeCount (allocateWorkspace alloc sync req).1 .pinned =
      (if stepOk alloc .host req.hostMem ∧ stepGot alloc .pinned req.pinnedMem
        then 1 else 0) ∧
    freeCount (allocateWorkspace alloc sync req).1 .cuda = 0 := by
  by_cases hz1 : req.hostMem.size = 0
  · by_cases hz2 : req.pinnedMem.size = 0
    · by_cases hz3 : req.cudaMem.size = 0
      · exact absurd ⟨Or.inl hz1, Or.inl hz2, Or.inl hz3⟩ hfail
      · rcases hp3 : alloc .cuda req.cudaMem.size req.cudaMem.alignment with _ | p3
        · simp [allocateWorkspace, allocStep, del, delMem, freeCount,
            stepOk, stepGot, hz1, hz2, hz3, hp3]
        · exact absurd ⟨Or.inl hz1, Or.inl hz2, Or.inr (by simp [hp3])⟩ hfail
    · rcases hp2 : alloc .pinned req.pinnedMem.size req.pinnedMem.alignment with _ | p2
      · simp [allocateWorkspace, allocStep, del, delMem, freeCount,
          stepOk, stepGot, hz1, hz2, hp2]
      · by_cases hz3 : req.cudaMem.size = 0
        · exact absurd ⟨Or.inl hz1, Or.inr (by simp [hp2]), Or.inl hz3⟩ hfail
        · rcases hp3 : alloc .cuda req.cudaMem.size req.cudaMem.alignment with _ | p3
          · simp [allocateWorkspace, allocStep, del, delMem, freeCount,
              stepOk, stepGot, hz1, hz2, hz3, hp2, hp3]
          · exact absurd ⟨Or.inl hz1, Or.inr (by simp [hp2]),
              Or.inr (by simp [hp3])⟩ hfail
  · rcases hp1 : alloc .host req.hostMem.size req.hostMem.alignment with _ | p1
    · simp [allocateWorkspace, allocStep, del, delMem, freeCount,
        stepOk, stepGot, hz1, hp1]
    · by_cases hz2 : req.pinnedMem.size = 0
      · by_cases hz3 : req.cudaMem.size = 0
        · exact absurd ⟨Or.inr (by simp [hp1]), Or.inl hz2, Or.inl hz3⟩ hfail
        · rcases hp3 : alloc .cuda req.cudaMem.size req.cudaMem.alignment with _ | p3
          · simp [allocateWorkspace, allocStep, del, delMem, freeCount,
              stepOk, stepGot, hz1, hz2, hz3, hp1, hp3]
          · exact absurd ⟨Or.inr (by simp [hp1]), Or.inl hz2,
              Or.inr (by simp [hp3])⟩ hfail
      · rcases hp2 : alloc .pinned req.pinnedMem.size req.pinnedMem.alignment with _ | p2
        · simp [allocateWorkspace, allocStep, del, delMem, freeCount,
            stepOk, stepGot, hz1, hz2, hp1, hp2]
        · by_cases hz3 : req.cudaMem.size = 0
          · exact absurd ⟨Or.inr (by simp [hp1]), Or.inr (by simp [hp2]),
              Or.inl hz3⟩ hfail
          · rcases hp3 : alloc .cuda req.cudaMem.size req.cudaMem.alignment with _ | p3
            · simp [allocateWorkspace, allocStep, del, delMem, freeCount,
                stepOk, stepGot, hz1, hz2, hz3, hp1, hp2, hp3]
            · exact absurd ⟨Or.inr (by simp [hp1]), Or.inr (by simp [hp2]),
                Or.inr (by simp [hp3])⟩ hfail

/-- A test allocator that succeeds for the host and pinned spaces and fails
for the cuda space. -/
def allocFailCuda : MemSpace → Nat → Nat → Option Nat :=
  fun s _ _ =>
    match s with
    | .host => some 11
    | .pinned => some 12
    | .cuda => none

/-- The spec's rollback scenario: nonzero host and device requirements, zero
pinned requirement. -/
def reqEx : WorkspaceRequirements :=
  ⟨⟨16, 8⟩, ⟨0, 1⟩, ⟨32, 8⟩⟩

/-- Witness for C1: host allocation succeeds, device allocation fails; the
host block is freed exactly once, the others never. -/
theorem allocateWorkspace_rollback_witness :
    (¬ (stepOk allocFailCuda .host reqEx.hostMem ∧
      stepOk allocFailCuda .pinned reqEx.pinnedMem ∧
      stepOk allocFailCuda .cuda reqEx.cudaMem)) ∧
    ((allocateWorkspace allocFailCuda syncT reqEx).2 = none ∧
     freeCount (allocateWorkspace allocFailCuda syncT reqEx).1 .host =
       (if stepGot allocFailCuda .host reqEx.hostMem then 1 else 0) ∧
     freeCount (allocateWorkspace allocFailCuda syncT reqEx).1 .pinned =
       (if stepOk allocFailCuda .host reqEx.hostMem ∧
          stepGot allocFailCuda .pinned reqEx.pinnedMem then 1 else 0) ∧
     freeCount (allocateWorkspace allocFailCuda syncT reqEx).1 .cuda = 0) :=
  ⟨by decide, allocateWorkspace_rollback allocFailCuda syncT reqEx (by decide)⟩

/-- Claim C8: when every needed allocation succeeds, `AllocateWorkspace` calls
`alloc` exactly once for each space with a nonzero requirement size and never
for a zero-size space, leaves the data pointer of every zero-size space null
(and allocated spaces non-null), records the requested requirement in every
block regardless, issues no `free` during allocation, and releasing the
returned workspace completes normally with exactly one `free` per allocated
block (equal alloc/free counts). -/
theorem allocateWorkspace_success (alloc : MemSpace → Nat → Nat → Option Nat)
    (sync : Nat → Bool) (req : WorkspaceRequirements)
    (hH : req.hostMem.size ≠ 0 →
      (alloc .host req.hostMem.size req.hostMem.alignment).isSome = true)
    (hP : req.pinnedMem.size ≠ 0 →
      (alloc .pinned req.pinnedMem.size req.pinnedMem.alignment).isSome = true)
    (hC : req.cudaMem.size ≠ 0 →
      (alloc .cuda req.cudaMem.size req.cudaMem.alignment).isSome = true) :
    ((allocateWorkspace alloc sync req).2.isSome = true ∧
      (∀ s, ((((allocateWorkspace alloc sync req).2.getD {}).get.memOf s).data).isSome = true ↔
        (req.memOf s).size ≠ 0) ∧
      (∀ s, (((allocateWorkspace alloc sync req).2.getD {}).get.memOf s).req = req.memOf s) ∧
      (∀ s, allocCount (allocateWorkspace alloc sync req).1 s =
        if (req.memOf s).size ≠ 0 then 1 else 0) ∧
      (∀ s, freeCount (allocateWorkspace alloc sync req).1 s = 0) ∧
      ((allocateWorkspace alloc sync req).2.getD {}).reset.2.2 = true ∧
      (∀ s, freeCount ((allocateWorkspace alloc sync req).2.getD {}).reset.1 s =
        if (req.memOf s).size ≠ 0 then 1 else 0)) := by
  by_cases hz1 : req.hostMem.size = 0
  · by_cases hz2 : req.pinnedMem.size = 0
    · by_cases hz3 : req.cudaMem.size = 0
      · refine ⟨?_, fun s => ?_, fun s => ?_, fun s => ?_, fun s => ?_, ?_, fun s => ?_⟩ <;>
          first
            | (cases s <;>
                simp [allocateWorkspace, allocStep, UniqueWorkspace.get, UniqueWorkspace.reset,
                  Workspace.memOf, WorkspaceRequirements.memOf, Option.getD, del, delMem, freeCount,
                  allocCount, hz1, hz2, hz3])
            | simp [allocateWorkspace, allocStep, UniqueWorkspace.get, UniqueWorkspace.reset,
                Workspace.memOf, WorkspaceRequirements.memOf, Option.getD, del, delMem, freeCount,
                allocCount, hz1, hz2, hz3]
      · obtain ⟨p3, hp3⟩ := Option.isSome_iff_exists.mp (hC hz3)
        refine ⟨?_, fun s => ?_, fun s => ?_, fun s => ?_, fun s => ?_, ?_, fun s => ?_⟩ <;>
          first
            | (cases s <;>
                simp [allocateWorkspace, allocStep, UniqueWorkspace.get, UniqueWorkspace.reset,
                  Workspace.memOf, WorkspaceRequirements.memOf, Option.getD, del, delMem, freeCount,
                  allocCount, hz1, hz2, hz3, hp3])
            | simp [allocateWorkspace, allocStep, UniqueWorkspace.get, UniqueWorkspace.reset,
                Workspace.memOf, WorkspaceRequirements.memOf, Option.getD, del, delMem, freeCount,
                allocCount, hz1, hz2, hz3, hp3]
    · obtain ⟨p2, hp2⟩ := Option.isSome_iff_exists.mp (hP hz2)
      by_cases hz3 : req.cudaMem.size = 0
      · refine ⟨?_, fun s => ?_, fun s => ?_, fun s => ?_, fun s => ?_, ?_, fun s => ?_⟩ <;>
          first
            | (cases s <;>
                simp [allocateWorkspace, allocStep, UniqueWorkspace.get, UniqueWorkspace.reset,
                  Workspace.memOf, WorkspaceRequirements.memOf, Option.getD, del, delMem, freeCount,
                  allocCount, hz1, hz2, hz3, hp2])
            | simp [allocateWorkspace, allocStep, UniqueWorkspace.get, UniqueWorkspace.reset,
                Workspace.memOf, WorkspaceRequirements.memOf, Option.getD, del, delMem, freeCount,
                allocCount, hz1, hz2, hz3, hp2]
      · obtain ⟨p3, hp3⟩ := Option.isSome_iff_exists.mp (hC hz3)
        refine ⟨?_, fun s => ?_, fun s => ?_, fun s => ?_, fun s => ?_, ?_, fun s => ?_⟩ <;>
          first
            | (cases s <;>
                simp [allocateWorkspace, allocStep, UniqueWorkspace.get, UniqueWorkspace.reset,
                  Workspace.memOf, WorkspaceRequirements.memOf, Option.getD, del, delMem, freeCount,
                  allocCount, hz1, hz2, hz3, hp2, hp3])
            | simp [allocateWorkspace, allocStep, UniqueWorkspace.get, UniqueWorkspace.reset,
                Workspace.memOf, WorkspaceRequirements.memOf, Option.getD, del, delMem, freeCount,
                allocCount, hz1, hz2, hz3, hp2, hp3]
  · obtain ⟨p1, hp1⟩ := Option.isSome_iff_exists.mp (hH hz1)
    by_cases hz2 : req.pinnedMem.size = 0
    · by_cases hz3 : req.cudaMem.size = 0
      · refine ⟨?_, fun s => ?_, fun s => ?_, fun s => ?_, fun s => ?_, ?_, fun s => ?_⟩ <;>
          first
            | (cases s <;>
                simp [allocateWorkspace, allocStep, UniqueWorkspace.get, UniqueWorkspace.reset,
                  Workspace.memOf, WorkspaceRequirements.memOf, Option.getD, del, delMem, freeCount,
                  allocCount, hz1, hz2, hz3, hp1])
            | simp [allocateWorkspace, allocStep, UniqueWorkspace.get, UniqueWorkspace.reset,
                Workspace.memOf, WorkspaceRequirements.memOf, Option.getD, del, delMem, freeCount,
                allocCount, hz1, hz2, hz3, hp1]
      · obtain ⟨p3, hp3⟩ := Option.isSome_iff_exists.mp (hC hz3)
        refine ⟨?_, fun s => ?_, fun s => ?_, fun s => ?_, fun s => ?_, ?_, fun s => ?_⟩ <;>
          first
            | (cases s <;>
                simp [allocateWorkspace, allocStep, UniqueWorkspace.get, UniqueWorkspace.reset,
                  Workspace.memOf, WorkspaceRequirements.memOf, Option.getD, del, delMem, freeCount,
                  allocCount, hz1, hz2, hz3, hp1, hp3])
            | simp [allocateWorkspace, allocStep, UniqueWorkspace.get, UniqueWorkspace.reset,
                Workspace.memOf, WorkspaceRequirements.memOf, Option.getD, del, delMem, freeCount,
                allocCount, hz1, hz2, hz3, hp1, hp3]
    · obtain ⟨p2, hp2⟩ := Option.isSome_iff_exists.mp (hP hz2)
      by_cases hz3 : req.cudaMem.size = 0
      · refine ⟨?_, fun s => ?_, fun s => ?_, fun s => ?_, fun s => ?_, ?_, fun s => ?_⟩ <;>
          first
            | (cases s <;>
                simp [allocateWorkspace, allocStep, UniqueWorkspace.get, UniqueWorkspace.reset,
                  Workspace.memOf, WorkspaceRequirements.memOf, Option.getD, del, delMem, freeCount,
                  allocCount, hz1, hz2, hz3, hp1, hp2])
            | simp [allocateWorkspace, allocStep, UniqueWorkspace.get, UniqueWorkspace.reset,
                Workspace.memOf, WorkspaceRequirements.memOf, Option.getD, del, delMem, freeCount,
                allocCount, hz1, hz2, hz3, hp1, hp2]
      · obtain ⟨p3, hp3⟩ := Option.isSome_iff_exists.mp (hC hz3)
        refine ⟨?_, fun s => ?_, fun s => ?_, fun s => ?_, fun s => ?_, ?_, fun s => ?_⟩ <;>
          first
            | (cases s <;>
                simp [allocateWorkspace, allocStep, UniqueWorkspace.get, UniqueWorkspace.reset,
                  Workspace.memOf, WorkspaceRequirements.memOf, Option.getD, del, delMem, freeCount,
                  allocCount, hz1, hz2, hz3, hp1, hp2, hp3])
            | simp [allocateWorkspace, allocStep, UniqueWorkspace.get, UniqueWorkspace.reset,
                Workspace.memOf, WorkspaceRequirements.memOf, Option.getD, del, delMem, freeCount,
                allocCount, hz1, hz2, hz3, hp1, hp2, hp3]

/-- An allocator that always succeeds. -/
def allocT : MemSpace → Nat → Nat → Option Nat :=
  fun _ _ _ => some 7

/-- The spec's zero-size scenario: only the pinned space has a nonzero
requirement. -/
def reqPinnedOnly : WorkspaceRequirements :=
  ⟨⟨0, 1⟩, ⟨64, 8⟩, ⟨0, 1⟩⟩

/-- Witness for C8: allocating `{host:{0,1}, pinned:{64,8}, device:{0,1}}`
performs exactly one alloc call (pinned) and, on release, exactly one free
call. -/
theorem allocateWorkspace_success_witness :
    (reqPinnedOnly.hostMem.size ≠ 0 →
      (allocT .host reqPinnedOnly.hostMem.size reqPinnedOnly.hostMem.alignment).isSome = true) ∧
    (reqPinnedOnly.pinnedMem.size ≠ 0 →
      (allocT .pinned reqPinnedOnly.pinnedMem.size reqPinnedOnly.pinnedMem.alignment).isSome
        = true) ∧
    (reqPinnedOnly.cudaMem.size ≠ 0 →
      (allocT .cuda reqPinnedOnly.cudaMem.size reqPinnedOnly.cudaMem.alignment).isSome = true) ∧
    ((allocateWorkspace allocT syncT reqPinnedOnly).2.isSome = true ∧
      (∀ s, ((((allocateWorkspace allocT syncT reqPinnedOnly).2.getD {}).get.memOf s).data).isSome
          = true ↔ (reqPinnedOnly.memOf s).size ≠ 0) ∧
      (∀ s, (((allocateWorkspace allocT syncT reqPinnedOnly).2.getD {}).get.memOf s).req =
        reqPinnedOnly.memOf s) ∧
      (∀ s, allocCount (allocateWorkspace allocT syncT reqPinnedOnly).1 s =
        if (reqPinnedOnly.memOf s).size ≠ 0 then 1 else 0) ∧
      (∀ s, freeCount (allocateWorkspace allocT syncT reqPinnedOnly).1 s = 0) ∧
      ((allocateWorkspace allocT syncT reqPinnedOnly).2.getD {}).reset.2.2 = true ∧
      (∀ s, freeCount ((allocateWorkspace allocT syncT reqPinnedOnly).2.getD {}).reset.1 s =
        if (reqPinnedOnly.memOf s).size ≠ 0 then 1 else 0)) :=
  ⟨by decide, by decide, by decide,
    allocateWorkspace_success allocT syncT reqPinnedOnly (by decide) (by decide) (by decide)⟩

/-- The always-failing readiness environment (every `cudaEventSynchronize`
call reports failure). -/
def syncF : Nat → Bool :=
  fun _ => false

/-- Witness for C4 at a concrete workspace whose host wait fails. -/
theorem del_wait_failure_fatal_witness :
    ((del syncF wsEx).2.2 = false ↔ ∃ e ∈ (del syncF wsEx).1, failedWait syncF e) ∧
    ((del syncF wsEx).2.2 = false →
      ∃ s ev, (del syncF wsEx).1.getLast? = some (Event.waitEvent s ev) ∧ syncF ev = false ∧
        ∀ p sz al, Event.freeMem s p sz al ∉ (del syncF wsEx).1) :=
  del_wait_failure_fatal syncF wsEx

/-- Witness for C5 at a concrete workspace. -/
theorem del_release_order_witness :
    ∃ th tp tc : List Event,
      (del syncT wsEx).1 = th ++ tp ++ tc ∧
      spaceOnly .host th ∧ spaceOnly .pinned tp ∧ spaceOnly .cuda tc ∧
      waitThenFree .host wsEx.hostMem th ∧ waitThenFree .pinned wsEx.pinnedMem tp ∧
      waitThenFree .cuda wsEx.cudaMem tc :=
  del_release_order syncT wsEx

end CvCuda
